import Mathlib

/-!
Shallow embedding of the hyperV service supervisor (Rust sources under
`src/`): the task registry (`src/manager.rs`), the process supervisor
(`src/process.rs`), the log manager (`src/logs.rs`) and the shared constants
(`src/lib.rs`).

Modelling conventions:
* pids are `Nat`, exit codes are `Int`, timestamps are opaque strings;
* the `HashMap` fields of the Rust code become association lists;
* every interaction with the operating system (signal-0 liveness probes,
  `kill(2)` delivery, `spawn`, `try_wait`, the filesystem) is an oracle
  packaged in an `Env` record, so the registry-level functions are exact
  translations of the Rust control flow over those oracles;
* durations are virtual milliseconds (`thread::sleep` advances a virtual
  clock recorded in event traces).
-/

namespace HyperV

/-- Task status enumeration (`TaskStatus` in `src/task.rs`). -/
inductive TaskStatus
  | Stopped
  | Running
  | Failed
deriving DecidableEq, Repr

/-- Task record (`Task` in `src/task.rs`). Field for field the Rust struct,
with the `HashMap<String, String>` environment as an association list. -/
structure Task where
  id : String
  name : String
  binary : String
  args : List String
  env : List (String × String)
  workdir : Option String
  auto_restart : Bool
  status : TaskStatus
  created_at : String
  pid : Option Nat
  stdout_log_path : Option String
  stderr_log_path : Option String
  last_started : Option String
  restart_count : Nat
  last_exit_code : Option Int
deriving DecidableEq, Repr

/-- `Task::new` (`src/task.rs`): fresh task with `status = Stopped`, no pid,
zero restart count and no exit code; `created_at` is the caller's clock. -/
def Task.new (id name binary : String) (args : List String)
    (env : List (String × String)) (workdir : Option String)
    (auto_restart : Bool) (stdout_log_path stderr_log_path : Option String)
    (now : String) : Task :=
  { id := id, name := name, binary := binary, args := args, env := env,
    workdir := workdir, auto_restart := auto_restart,
    status := TaskStatus.Stopped, created_at := now, pid := none,
    stdout_log_path := stdout_log_path, stderr_log_path := stderr_log_path,
    last_started := none, restart_count := 0, last_exit_code := none }

/-- Errors (`HyperVError` in `src/error.rs`); only the variants reachable from
the modelled operations are carried. -/
inductive HErr
  | Io
  | Serialization (msg : String)
  | TaskNotFound (ident : String)
  | TaskExists (name : String)
  | TaskAlreadyRunning (name : String)
  | WorkdirNotFound (dir : String)
  | InvalidEnvVar (v : String)
  | ProcessStart (binary msg : String)
  | ProcessStop (msg : String)
  | BinaryNotFound (b : String)
  | BinaryNotExecutable (b : String)
  | InterpreterNotFound (i : String)
deriving DecidableEq, Repr

/-- Rust `str::starts_with`, character by character (agrees with
`String.startsWith`, but stated over the character lists so that it
evaluates by kernel reduction). -/
def strStartsWith (s pre : String) : Bool :=
  pre.data.isPrefixOf s.data

/-- The per-task test of `TaskManager::find_task` (`src/manager.rs:154-158`):
exact name, or exact id, or the identifier is a prefix of the id, all tested
on one task at a time. -/
def matchesIdent (t : Task) (ident : String) : Bool :=
  t.name == ident || t.id == ident || strStartsWith t.id ident

/-- `TaskManager::find_task` (`src/manager.rs:153-159`): first task in
insertion (vector) order whose `matchesIdent` holds. -/
def find_task (tasks : List Task) (ident : String) : Option Task :=
  tasks.find? (fun t => matchesIdent t ident)

/-- State of the backing registry file as seen by `TaskManager::new`
(`src/manager.rs:28-46`): missing, present but unreadable (the
`fs::read_to_string` call fails), or readable with the given content. -/
inductive FileState
  | absent
  | unreadable
  | content (s : String)
deriving DecidableEq, Repr

/-- The task-loading portion of `TaskManager::new` (`src/manager.rs:31-39`).
`parse` stands for `serde_json::from_str::<Vec<Task>>`.  A missing file gives
the empty vector; a read failure is propagated as an error via `?`
(`.map_err(HyperVError::Io)?`); malformed content falls back to the empty
vector via `unwrap_or_else(|_| Vec::new())`. -/
def loadTasks (parse : String → Option (List Task)) :
    FileState → Except HErr (List Task)
  | FileState.absent => Except.ok []
  | FileState.unreadable => Except.error HErr.Io
  | FileState.content s => Except.ok ((parse s).getD [])

/-- `constants::MAX_LOG_SIZE` (`src/lib.rs:23`): 10 MB. -/
def MAX_LOG_SIZE : Nat := 10 * 1024 * 1024

/-- `constants::MAX_RESTART_ATTEMPTS` (`src/lib.rs:26`). -/
def MAX_RESTART_ATTEMPTS : Nat := 5

/-- `constants::SHUTDOWN_TIMEOUT` (`src/lib.rs:35`), in milliseconds. -/
def SHUTDOWN_TIMEOUT_MS : Nat := 2000

/-- `constants::RESTART_DELAY` (`src/lib.rs:29`), in milliseconds. -/
def RESTART_DELAY_MS : Nat := 1000

/-- Abstract filesystem for log rotation: a path maps to the byte size of the
file stored there (`none` when no file exists).  Only sizes are observable by
`rotate_log_if_needed` (`fs::metadata(..).len()`), and `remove_file` /
`rename` act on whole files, so sizes model the rotation exactly. -/
def SizeFs : Type := String → Option Nat

/-- Backup path of a log file.  `rotate_log_if_needed` computes
`log_path.with_extension("log.old")`; on the `*.log` paths the manager uses
(`<id>/stdout.log`, `<id>/stderr.log`) this appends `.old`. -/
def backupPath (p : String) : String := p ++ ".old"

/-- `LogManager::rotate_log_if_needed` (`src/logs.rs:38-64`) over the abstract
filesystem: a missing file or one of size at most `MAX_LOG_SIZE` is left
alone; a strictly larger file is renamed onto its backup path, the previous
backup (if any) having been removed first, which composes to: the log path is
now empty and the backup path holds the old file. -/
def rotate_log_if_needed (fs : SizeFs) (p : String) : SizeFs :=
  match fs p with
  | none => fs
  | some sz =>
    if sz > MAX_LOG_SIZE then
      fun q => if q = p then none else if q = backupPath p then some sz else fs q
    else fs

/-- `LogManager::read_log_lines` (`src/logs.rs:67-88`).  `file` is the list of
lines of the log file, `none` when the path does not exist.  A missing file
yields the single sentinel line; otherwise the slice from
`start_index = if len > lines then len - lines else 0` to the end. -/
def read_log_lines (file : Option (List String)) (lines : Nat) : List String :=
  match file with
  | none => ["Log file not found or empty"]
  | some all =>
    let start := if all.length > lines then all.length - lines else 0
    all.drop start

/-- Outcome of `Child::try_wait` on one tracked handle, as used by
`ProcessManager::cleanup_zombies` (`src/process.rs:257-270`): exited with an
optional exit code (`Ok(Some(status))`, `status.code()`), still running
(`Ok(None)`), or a wait error (`Err(_)`). -/
inductive TryWait
  | exited (code : Option Int)
  | stillRunning
  | waitErr
deriving DecidableEq, Repr

/-- The two escalation signals sent by `ProcessManager::stop_task`. -/
inductive Sig
  | term
  | kill
deriving DecidableEq, Repr

/-- One `kill(2)` call recorded while stopping a process: `target` is the
signed pid argument (negative means the process group), `time` the virtual
clock in milliseconds since the stop began (`thread::sleep(SHUTDOWN_TIMEOUT)`
advances it by `SHUTDOWN_TIMEOUT_MS`). -/
structure SigEvent where
  target : Int
  sig : Sig
  time : Nat
deriving DecidableEq, Repr

/-- Errors `ProcessManager::start_task` can produce
(`src/process.rs:47-96` and `validate_binary`): this is the exact error
surface of the callee, kept separate from `HErr` so that the spawn oracle
cannot smuggle in manager-level errors. -/
inductive SpawnErr
  | binaryNotFound (b : String)
  | binaryNotExecutable (b : String)
  | interpreterNotFound (i : String)
  | io
  | processStart (binary msg : String)
deriving DecidableEq, Repr

/-- Injection of `ProcessManager::start_task` errors into the common error
type (in the Rust code both are one enum). -/
def SpawnErr.toH : SpawnErr → HErr
  | SpawnErr.binaryNotFound b => HErr.BinaryNotFound b
  | SpawnErr.binaryNotExecutable b => HErr.BinaryNotExecutable b
  | SpawnErr.interpreterNotFound i => HErr.InterpreterNotFound i
  | SpawnErr.io => HErr.Io
  | SpawnErr.processStart b m => HErr.ProcessStart b m

/-- Oracle for everything the supervisor asks of the operating system.

* `aliveAt k pid` — result of the `k`-th `is_process_running(pid)` probe of
  the current operation (signal-0; successive probes of one operation may
  observe different worlds);
* `deliver target sig` — success of the `kill(2)` call with the given signed
  target (negative = process group) and signal;
* `spawn id` — result of binary validation plus `Command::spawn` for the task
  with this id (a fresh pid, or one of the callee's errors);
* `workdirExists`, `rotateOk` — filesystem answers used by
  `TaskManager::start_task` (`rotateOk p = false` models an I/O failure
  inside `rotate_log_if_needed`);
* `tryWait id` — `Child::try_wait` on the tracked handle of task `id`;
* `envFile w` — lines of the `.env` file in workdir `w`, when it exists;
* `now` — the current timestamp string. -/
structure Env where
  aliveAt : Nat → Nat → Bool
  deliver : Int → Sig → Bool
  spawn : String → Except SpawnErr Nat
  workdirExists : String → Bool
  rotateOk : String → Bool
  tryWait : String → TryWait
  envFile : String → Option (List String)
  now : String

/-- Removal from the live-process map (`running_processes.remove(task_id)`).
The map is modelled by its key list. -/
def pmRemove (pm : List String) (id : String) : List String :=
  pm.filter (fun x => x ≠ id)

/-- Insertion into the live-process map
(`running_processes.insert(task.id, child)`); inserting an existing key
replaces its handle, so the key list gains `id` at most once. -/
def pmInsert (pm : List String) (id : String) : List String :=
  if pm.contains id then pm else pm ++ [id]

/-- Result of `ProcessManager::stop_task`: the operation's result, the
updated live-process key list, and the recorded `kill(2)` calls. -/
structure StopOut where
  result : Except HErr Unit
  pm : List String
  events : List SigEvent
deriving Repr

/-- Second half of `ProcessManager::stop_task` (`src/process.rs:137-179`),
entered after a SIGTERM delivery succeeded: sleep the shutdown timeout,
re-probe (probe 2), and if the process is still alive send SIGKILL to the
group, falling back to the pid, with a final liveness re-probe (probe 3) when
both deliveries fail.  On every surviving path the handle is removed; the
error path returns without removing it. -/
def pmStopAfterTerm (env : Env) (pm : List String) (task_id : String)
    (pid : Nat) (evs : List SigEvent) : StopOut :=
  if env.aliveAt 2 pid then
    if env.deliver (-(pid : Int)) Sig.kill then
      { result := Except.ok (), pm := pmRemove pm task_id,
        events := evs ++ [⟨-(pid : Int), Sig.kill, SHUTDOWN_TIMEOUT_MS⟩] }
    else
      if env.deliver (pid : Int) Sig.kill then
        { result := Except.ok (), pm := pmRemove pm task_id,
          events := evs ++ [⟨-(pid : Int), Sig.kill, SHUTDOWN_TIMEOUT_MS⟩,
                            ⟨(pid : Int), Sig.kill, SHUTDOWN_TIMEOUT_MS⟩] }
      else if env.aliveAt 3 pid then
        { result := Except.error (HErr.ProcessStop "sigkill"), pm := pm,
          events := evs ++ [⟨-(pid : Int), Sig.kill, SHUTDOWN_TIMEOUT_MS⟩,
                            ⟨(pid : Int), Sig.kill, SHUTDOWN_TIMEOUT_MS⟩] }
      else
        { result := Except.ok (), pm := pmRemove pm task_id,
          events := evs ++ [⟨-(pid : Int), Sig.kill, SHUTDOWN_TIMEOUT_MS⟩,
                            ⟨(pid : Int), Sig.kill, SHUTDOWN_TIMEOUT_MS⟩] }
  else
    { result := Except.ok (), pm := pmRemove pm task_id, events := evs }

/-- `ProcessManager::stop_task` (`src/process.rs:99-180`).  Probe 0 is the
entry liveness check: a dead pid is an idempotent success that only drops the
tracked handle.  Otherwise SIGTERM goes to the process group, falling back to
the pid when group delivery fails; if both fail, probe 1 decides between
"died meanwhile" (success, drop handle) and a `ProcessStop` error.  A
delivered SIGTERM continues with `pmStopAfterTerm`. -/
def pm_stop_task (env : Env) (pm : List String) (task_id : String)
    (pid : Nat) : StopOut :=
  if env.aliveAt 0 pid then
    if env.deliver (-(pid : Int)) Sig.term then
      pmStopAfterTerm env pm task_id pid [⟨-(pid : Int), Sig.term, 0⟩]
    else
      if env.deliver (pid : Int) Sig.term then
        pmStopAfterTerm env pm task_id pid
          [⟨-(pid : Int), Sig.term, 0⟩, ⟨(pid : Int), Sig.term, 0⟩]
      else if env.aliveAt 1 pid then
        { result := Except.error (HErr.ProcessStop "sigterm"), pm := pm,
          events := [⟨-(pid : Int), Sig.term, 0⟩, ⟨(pid : Int), Sig.term, 0⟩] }
      else
        { result := Except.ok (), pm := pmRemove pm task_id,
          events := [⟨-(pid : Int), Sig.term, 0⟩, ⟨(pid : Int), Sig.term, 0⟩] }
  else
    { result := Except.ok (), pm := pmRemove pm task_id, events := [] }

/-- `ProcessManager::cleanup_zombies` (`src/process.rs:253-277`): every
tracked handle whose `try_wait` reports an exit or a wait error is removed
from the live map; exit codes are collected for the handles that exited with
a code.  Returns the surviving key list and the `task id → exit code`
association list. -/
def cleanup_zombies (env : Env) (pm : List String) :
    List String × List (String × Int) :=
  (pm.filter (fun id =>
      match env.tryWait id with
      | TryWait.stillRunning => true
      | _ => false),
   pm.filterMap (fun id =>
      match env.tryWait id with
      | TryWait.exited (some c) => some (id, c)
      | _ => none))

/-- Observable events of a registry operation: a snapshot written to the
backing file by `TaskManager::save`, a `thread::sleep`, or an invocation of
`ProcessManager::start_task` (binary validation plus spawn) for a task id. -/
inductive Ev
  | saved (tasks : List Task)
  | sleptMs (ms : Nat)
  | spawnCall (id : String)
deriving DecidableEq, Repr

/-- Manager state: the task vector, the live-process key list of the embedded
`ProcessManager`, and the event trace of the operations run so far. -/
structure MState where
  tasks : List Task
  pm : List String
  trace : List Ev
deriving Repr

/-- `TaskManager::save` (`src/manager.rs:49-57`): serialize the whole task
vector to the backing file.  The write is modelled as always succeeding and
is recorded as a `saved` snapshot on the trace. -/
def save (s : MState) : MState :=
  { s with trace := s.trace ++ [Ev.saved s.tasks] }

/-- Replace the first element satisfying `p` by its image under `f` — the
shape of every `find_task_mut` / `iter_mut().find` mutation in
`src/manager.rs`. -/
def updateFirst (p : Task → Bool) (f : Task → Task) : List Task → List Task
  | [] => []
  | t :: ts => if p t then f t :: ts else t :: updateFirst p f ts

/-- Did `refresh_task_statuses` touch this task (`src/manager.rs:433-441`):
status `Running`, a recorded pid, and the probe says the pid is gone. -/
def refreshHit (env : Env) (t : Task) : Bool :=
  t.status == TaskStatus.Running &&
    (match t.pid with
     | some p => !env.aliveAt 0 p
     | none => false)

/-- Per-task action of `TaskManager::refresh_task_statuses`: a running task
whose pid no longer answers the probe becomes `Stopped` with its pid
cleared; everything else is untouched. -/
def refreshTask (env : Env) (t : Task) : Task :=
  if refreshHit env t then
    { t with status := TaskStatus.Stopped, pid := none }
  else t

/-- `TaskManager::refresh_task_statuses` (`src/manager.rs:429-450`): apply
`refreshTask` to every task and save exactly when something changed. -/
def refresh_task_statuses (env : Env) (s : MState) : MState :=
  let ts := s.tasks.map (refreshTask env)
  if s.tasks.any (refreshHit env) then save { s with tasks := ts }
  else { s with tasks := ts }

/-- Did `cleanup` touch this task (`src/manager.rs:473-488`): same liveness
condition as `refreshHit` (the probe, not the reap, decides). -/
def cleanupHit (env : Env) (t : Task) : Bool :=
  refreshHit env t

/-- Per-task action of `TaskManager::cleanup`: a running task whose pid no
longer answers the probe records the reaped exit code when
`cleanup_zombies` produced one for its id, then becomes `Failed` with its
pid cleared. -/
def cleanupTask (env : Env) (codes : List (String × Int)) (t : Task) : Task :=
  if cleanupHit env t then
    let t1 := match codes.lookup t.id with
      | some c => { t with last_exit_code := some c }
      | none => t
    { t1 with status := TaskStatus.Failed, pid := none }
  else t

/-- `TaskManager::cleanup` (`src/manager.rs:468-496`): reap zombies first,
then reconcile every running task whose pid is gone to `Failed`, attaching
the reaped exit code when available; save exactly when something changed. -/
def cleanup (env : Env) (s : MState) : MState :=
  let reaped := cleanup_zombies env s.pm
  let ts := s.tasks.map (cleanupTask env reaped.2)
  let s1 := { s with pm := reaped.1, tasks := ts }
  if s.tasks.any (cleanupHit env) then save s1 else s1

/-- `TaskManager::stop_task` (`src/manager.rs:262-303`).  Unknown identifier:
`TaskNotFound`.  Status not `Running`: immediate success, nothing written.
Running with a recorded pid that fails the probe: mark `Stopped`, clear the
pid, save, success.  Running with a live pid: run the supervisor stop and
propagate its error (leaving the registry unwritten), otherwise mark
`Stopped`, clear the pid, save.  Running without a pid: fall through to the
final `Stopped`-and-save update. -/
def stop_task (env : Env) (s : MState) (ident : String) :
    Except HErr Unit × MState :=
  match find_task s.tasks ident with
  | none => (Except.error (HErr.TaskNotFound ident), s)
  | some task =>
    if task.status = TaskStatus.Running then
      match task.pid with
      | some pid =>
        if !env.aliveAt 0 pid then
          (Except.ok (), save { s with
            tasks := updateFirst (fun t => matchesIdent t ident)
              (fun t => { t with status := TaskStatus.Stopped, pid := none })
              s.tasks })
        else
          let out := pm_stop_task env s.pm task.id pid
          match out.result with
          | Except.error e => (Except.error e, { s with pm := out.pm })
          | Except.ok _ =>
            let ts := updateFirst (fun t => matchesIdent t ident)
              (fun t => { t with status := TaskStatus.Stopped, pid := none })
              s.tasks
            (Except.ok (), save { s with pm := out.pm, tasks := ts })
      | none =>
        (Except.ok (), save { s with
          tasks := updateFirst (fun t => matchesIdent t ident)
            (fun t => { t with status := TaskStatus.Stopped, pid := none })
            s.tasks })
    else (Except.ok (), s)

/-- Per-task stdout log path (`Config::stdout_log_path`):
`<logs>/<id>/stdout.log`, with the logs directory elided. -/
def stdoutLogPath (id : String) : String := id ++ "/stdout.log"

/-- Per-task stderr log path (`Config::stderr_log_path`). -/
def stderrLogPath (id : String) : String := id ++ "/stderr.log"

/-- Workdir validation of `TaskManager::start_task`
(`src/manager.rs:193-197`): a task with no workdir passes; otherwise the
directory must exist. -/
def wdExistsOk (env : Env) (wd : Option String) : Bool :=
  match wd with
  | some w => env.workdirExists w
  | none => true

/-- Tail of `TaskManager::start_task` from the workdir validation on
(`src/manager.rs:192-258`), acting on the possibly already reconciled state:
validate the workdir of the cloned record, rotate both logs, then call the
supervisor's spawn.  Success marks the first `ident` match `Running` with
the fresh pid and a new `last_started`; failure marks it `Failed` (its pid
field is left as it was) and propagates the spawn error.  The merged
environment (task env over `.env` file values) only feeds the spawned
process, which the `spawn` oracle abstracts, so it does not appear in the
state. -/
def start_task_body (env : Env) (s : MState) (task : Task) (ident : String) :
    Except HErr Unit × MState :=
  if !wdExistsOk env task.workdir then
    (Except.error (HErr.WorkdirNotFound (task.workdir.getD "")), s)
  else if !env.rotateOk (stdoutLogPath task.id) then
    (Except.error HErr.Io, s)
  else if !env.rotateOk (stderrLogPath task.id) then
    (Except.error HErr.Io, s)
  else
    let s1 := { s with trace := s.trace ++ [Ev.spawnCall task.id] }
    match env.spawn task.id with
    | Except.ok pid =>
      let ts := updateFirst (fun t => matchesIdent t ident)
        (fun t =>
          { t with status := TaskStatus.Running, pid := some pid,
                   last_started := some env.now })
        s1.tasks
      (Except.ok (), save { s1 with pm := pmInsert s1.pm task.id, tasks := ts })
    | Except.error e =>
      let ts := updateFirst (fun t => matchesIdent t ident)
        (fun t => { t with status := TaskStatus.Failed })
        s1.tasks
      (Except.error e.toH, save { s1 with tasks := ts })

/-- `TaskManager::start_task` (`src/manager.rs:171-259`).  Unknown
identifier: `TaskNotFound`.  A `Running` task with a recorded pid that still
answers the probe: `TaskAlreadyRunning`.  A `Running` task with a dead
recorded pid is first reconciled to `Failed` with the pid cleared and saved;
a `Running` task without a pid is left as is; then `start_task_body` runs on
the cloned record. -/
def start_task (env : Env) (s : MState) (ident : String) :
    Except HErr Unit × MState :=
  match find_task s.tasks ident with
  | none => (Except.error (HErr.TaskNotFound ident), s)
  | some task =>
    match task.status, task.pid with
    | TaskStatus.Running, some pid =>
      if env.aliveAt 0 pid then
        (Except.error (HErr.TaskAlreadyRunning task.name), s)
      else
        start_task_body env
          (save { s with
            tasks := updateFirst (fun t => matchesIdent t ident)
              (fun t => { t with status := TaskStatus.Failed, pid := none })
              s.tasks })
          task ident
    | _, _ => start_task_body env s task ident

/-- Rust `str::split_once('=')`: the pieces before and after the first `=`,
or `none` when the string holds no `=`. -/
def splitOnceEq (s : String) : Option (String × String) :=
  match s.splitOn "=" with
  | [] => none
  | [_] => none
  | k :: rest => some (k, String.intercalate "=" rest)

/-- `HashMap::insert` on the association-list model: overwrite an existing
key in place, otherwise append. -/
def alInsert (m : List (String × String)) (k v : String) :
    List (String × String) :=
  if (m.lookup k).isSome then
    m.map (fun kv => if kv.1 = k then (k, v) else kv)
  else m ++ [(k, v)]

/-- Command-line environment parsing in `TaskManager::create_task`
(`src/manager.rs:75-82`): each `KEY=VALUE` is split at the first `=` and
inserted; a string without `=` aborts with `InvalidEnvVar`. -/
def parseEnvVars (acc : List (String × String)) :
    List String → Except HErr (List (String × String))
  | [] => Except.ok acc
  | v :: rest =>
    match splitOnceEq v with
    | some kv => parseEnvVars (alInsert acc kv.1 kv.2) rest
    | none => Except.error (HErr.InvalidEnvVar v)

/-- One line of a workdir `.env` file merged into the environment
(`src/manager.rs:88-97`): lines without `=` are skipped, and explicit task
values take precedence (insert only when the key is absent). -/
def mergeEnvLine (m : List (String × String)) (line : String) :
    List (String × String) :=
  match splitOnceEq line with
  | some kv => if (m.lookup kv.1).isSome then m else m ++ [(kv.1, kv.2)]
  | none => m

/-- `TaskManager::create_task` (`src/manager.rs:60-125`): fail with
`TaskExists` on a name collision; parse the command-line environment; merge
the workdir `.env` file under it; append the fresh `Stopped` task (the fresh
uuid is the `freshId` argument) and save. -/
def create_task (env : Env) (s : MState) (name binary : String)
    (args : List String) (env_vars : List String) (workdir : Option String)
    (auto_restart : Bool) (freshId : String) : Except HErr Unit × MState :=
  if s.tasks.any (fun t => t.name == name) then
    (Except.error (HErr.TaskExists name), s)
  else
    match parseEnvVars [] env_vars with
    | Except.error e => (Except.error e, s)
    | Except.ok e0 =>
      let e1 := match workdir with
        | some w =>
          match env.envFile w with
          | some ls => ls.foldl mergeEnvLine e0
          | none => e0
        | none => e0
      let task := Task.new freshId name binary args e1 workdir auto_restart
        (some (stdoutLogPath freshId)) (some (stderrLogPath freshId)) env.now
      (Except.ok (), save { s with tasks := s.tasks ++ [task] })

/-- `TaskManager::remove_task` (`src/manager.rs:306-325`): locate the first
match's index; if that task is `Running`, run the full stop first and
propagate its error; then delete the record at that index and save. -/
def remove_task (env : Env) (s : MState) (ident : String) :
    Except HErr Unit × MState :=
  match s.tasks.findIdx? (fun t => matchesIdent t ident) with
  | none => (Except.error (HErr.TaskNotFound ident), s)
  | some i =>
    if ((s.tasks.get? i).map Task.status) = some TaskStatus.Running then
      match stop_task env s ident with
      | (Except.error e, s1) => (Except.error e, s1)
      | (Except.ok _, s1) =>
        (Except.ok (), save { s1 with tasks := s1.tasks.eraseIdx i })
    else (Except.ok (), save { s with tasks := s.tasks.eraseIdx i })

/-- The restart-selection test of `TaskManager::check_and_restart_tasks`
(`src/manager.rs:392-396`): auto-restart enabled, status `Failed`, and
restart count at most `MAX_RESTART_ATTEMPTS`. -/
def restartPred (t : Task) : Bool :=
  t.auto_restart && t.status == TaskStatus.Failed &&
    decide (t.restart_count ≤ MAX_RESTART_ATTEMPTS)

/-- The ids collected up front by `check_and_restart_tasks`
(`src/manager.rs:390-398`). -/
def restartSelect (tasks : List Task) : List String :=
  (tasks.filter restartPred).map Task.id

/-- The increment-and-persist step of one restart iteration
(`src/manager.rs:405-407`): bump the restart count of the first exact-id
match and save. -/
def restartIncr (s : MState) (task_id : String) : MState :=
  save { s with
    tasks := updateFirst (fun u => u.id == task_id)
      (fun u => { u with restart_count := u.restart_count + 1 }) s.tasks }

/-- The inter-attempt `thread::sleep(RESTART_DELAY)` (`src/manager.rs:410`),
recorded on the trace. -/
def restartSleep (s : MState) : MState :=
  { s with trace := s.trace ++ [Ev.sleptMs RESTART_DELAY_MS] }

/-- One iteration of the restart loop (`src/manager.rs:400-423`): re-find the
task by exact id (skip if gone); increment its restart count and save; sleep
the inter-attempt delay; start it by name; when the start fails, mark the
first name match `Failed` again and save. -/
def restartIter (env : Env) (s : MState) (task_id : String) : MState :=
  match s.tasks.find? (fun t => t.id == task_id) with
  | none => s
  | some t =>
    match start_task env (restartSleep (restartIncr s task_id)) t.name with
    | (Except.ok _, s3) => s3
    | (Except.error _, s3) =>
      save { s3 with
        tasks := updateFirst (fun u => matchesIdent u t.name)
          (fun u => { u with status := TaskStatus.Failed }) s3.tasks }

/-- `TaskManager::check_and_restart_tasks` (`src/manager.rs:387-426`): fold
the restart iteration over the up-front selection. -/
def check_and_restart_tasks (env : Env) (s : MState) : MState :=
  (restartSelect s.tasks).foldl (restartIter env) s

/-- Is an event a call of `ProcessManager::start_task` (a start attempt)? -/
def isSpawn (e : Ev) : Bool :=
  match e with
  | Ev.spawnCall _ => true
  | _ => false

/-- The invariant of §3 of the design: a pid is recorded only for a task
believed `Running`. -/
def Inv (tasks : List Task) : Prop :=
  ∀ t ∈ tasks, t.pid ≠ none → t.status = TaskStatus.Running

instance (tasks : List Task) : Decidable (Inv tasks) := by
  unfold Inv; infer_instance

/-- A convenient concrete task: fresh record with the given id and name. -/
def sampleTask (id name : String) : Task :=
  Task.new id name "/bin/true" [] [] none false none none "t0"

/-- Projection of the registry onto the `last_exit_code` fields, used to
show which operations can and cannot record an exit code. -/
def lec (ts : List Task) : List (Option Int) :=
  ts.map Task.last_exit_code

def c2Env : Env :=
  { aliveAt := fun _ _ => false, deliver := fun _ _ => true,
    spawn := fun _ => Except.ok 1, workdirExists := fun _ => true,
    rotateOk := fun _ => true,
    tryWait := fun _ => TryWait.exited (some 7),
    envFile := fun _ => none, now := "t1" }

def c2Task : Task :=
  { sampleTask "id01" "n1" with status := TaskStatus.Running, pid := some 5 }

def c7Env : Env :=
  { aliveAt := fun _ p => p == 7, deliver := fun _ _ => true,
    spawn := fun _ => Except.ok 8, workdirExists := fun _ => true,
    rotateOk := fun _ => true, tryWait := fun _ => TryWait.stillRunning,
    envFile := fun _ => none, now := "t3" }

def c7State : MState :=
  { tasks := [{ sampleTask "abc1" "a" with
      status := TaskStatus.Running, pid := some 7 },
    { sampleTask "zzz1" "abc" with
      status := TaskStatus.Failed, auto_restart := true }],
    pm := [], trace := [] }

def c3Env : Env :=
  { aliveAt := fun _ _ => false, deliver := fun _ _ => true,
    spawn := fun _ => Except.ok 42, workdirExists := fun _ => true,
    rotateOk := fun _ => true, tryWait := fun _ => TryWait.stillRunning,
    envFile := fun _ => none, now := "t5" }

def c3TaskC : Task :=
  { sampleTask "abc9" "c" with
    status := TaskStatus.Failed, auto_restart := true, restart_count := 6 }

def c3TaskB : Task :=
  { sampleTask "bbb1" "abc" with
    status := TaskStatus.Failed, auto_restart := true }

def c3State : MState :=
  { tasks := [c3TaskC, c3TaskB], pm := [], trace := [] }

def c3wTask : Task :=
  { sampleTask "id07" "n7" with
    status := TaskStatus.Failed, auto_restart := true, restart_count := 6 }

theorem updateFirst_of_find?_none (p : Task → Bool) (f : Task → Task)
    (ts : List Task) (h : ts.find? p = none) : updateFirst p f ts = ts := by
  induction ts with
  | nil => rfl
  | cons t ts ih =>
    by_cases hp : p t
    · simp [List.find?_cons_of_pos _ hp] at h
    · simp [updateFirst, hp, ih (by simpa [List.find?_cons_of_neg _ hp] using h)]

theorem find?_updateFirst (p : Task → Bool) (f : Task → Task)
    (ts : List Task) (t : Task) (h : ts.find? p = some t)
    (hf : ∀ u, p (f u) = p u) :
    (updateFirst p f ts).find? p = some (f t) := by
  induction ts with
  | nil => simp [List.find?] at h
  | cons b ts ih =>
    by_cases hp : p b = true
    · rw [List.find?_cons_of_pos _ hp] at h
      have hbt : b = t := Option.some.inj h
      have hfb : p (f b) = true := by rw [hf]; exact hp
      simp only [updateFirst, if_pos hp]
      rw [List.find?_cons_of_pos _ hfb, hbt]
    · rw [List.find?_cons_of_neg _ hp] at h
      simp only [updateFirst, if_neg hp]
      rw [List.find?_cons_of_neg _ hp]
      exact ih h

theorem mem_updateFirst (p : Task → Bool) (f : Task → Task)
    (ts : List Task) (a : Task) (h : a ∈ updateFirst p f ts) :
    a ∈ ts ∨ ∃ b, ts.find? p = some b ∧ a = f b := by
  induction ts with
  | nil => simp [updateFirst] at h
  | cons t ts ih =>
    by_cases hp : p t
    · simp only [updateFirst, if_pos hp] at h
      rcases List.mem_cons.mp h with h1 | h1
      · exact Or.inr ⟨t, by rw [List.find?_cons_of_pos _ hp], h1⟩
      · exact Or.inl (List.mem_cons_of_mem _ h1)
    · simp only [updateFirst, if_neg hp] at h
      rcases List.mem_cons.mp h with h1 | h1
      · exact Or.inl (h1 ▸ List.mem_cons_self _ _)
      · rcases ih h1 with h2 | ⟨b, hb, hab⟩
        · exact Or.inl (List.mem_cons_of_mem _ h2)
        · exact Or.inr ⟨b, by rw [List.find?_cons_of_neg _ hp]; exact hb, hab⟩

theorem map_updateFirst {α : Type} (g : Task → α) (p : Task → Bool)
    (f : Task → Task) (ts : List Task) (hf : ∀ u, g (f u) = g u) :
    (updateFirst p f ts).map g = ts.map g := by
  induction ts with
  | nil => rfl
  | cons t ts ih =>
    by_cases hp : p t
    · simp [updateFirst, hp, hf t]
    · simp [updateFirst, hp, ih]

/-- C1 counterexample.  Registry: first (earlier-created) task has id
`"abc1"` and name `"x"`; second (later-created) task has name `"ab"`.  The
identifier `"ab"` is a mere prefix of the first task's id while it equals
the second task's name exactly, yet `find_task` returns the first task, not
the claimed exact-name match. -/
theorem C1_counterexample :
    find_task [sampleTask "abc1" "x", sampleTask "zzz9" "ab"] "ab" =
      some (sampleTask "abc1" "x") ∧
    (sampleTask "zzz9" "ab").name = "ab" ∧
    (sampleTask "abc1" "x").name ≠ "ab" ∧
    strStartsWith (sampleTask "abc1" "x").id "ab" = true ∧
    find_task [sampleTask "abc1" "x", sampleTask "zzz9" "ab"] "ab" ≠
      some (sampleTask "zzz9" "ab") := by
  decide

/-- C1 (amended): `find_task` applies the three structural tests (exact
name, exact id, id-prefix) as one disjunction per task and returns the first
task in insertion order satisfying any of them; there is no priority between
the match kinds, so an earlier task matched only by id-prefix wins over a
later task whose name equals the identifier exactly. -/
theorem C1_find_first_match (tasks : List Task) (ident : String) (i : Nat)
    (hi : i < tasks.length)
    (hm : matchesIdent (tasks.get ⟨i, hi⟩) ident = true)
    (hj : ∀ j (h : j < i),
      matchesIdent (tasks.get ⟨j, Nat.lt_trans h hi⟩) ident = false) :
    find_task tasks ident = some (tasks.get ⟨i, hi⟩) := by
  induction tasks generalizing i with
  | nil => exact absurd hi (Nat.not_lt_zero i)
  | cons t ts ih =>
    cases i with
    | zero =>
      have hm0 : matchesIdent t ident = true := hm
      show List.find? (fun u => matchesIdent u ident) (t :: ts) = some t
      exact List.find?_cons_of_pos _ hm0
    | succ k =>
      have h0 : matchesIdent t ident = false := hj 0 (Nat.succ_pos k)
      have hk : k < ts.length := Nat.lt_of_succ_lt_succ hi
      have hrec := ih k hk hm (fun j h => hj (j + 1) (Nat.succ_lt_succ h))
      unfold find_task at hrec
      show List.find? (fun u => matchesIdent u ident) (t :: ts) =
        some (ts.get ⟨k, hk⟩)
      rw [List.find?_cons_of_neg _ (by simp [h0])]
      exact hrec

theorem C1_witness :
    find_task [sampleTask "aa11" "n1"] "a" = some (sampleTask "aa11" "n1") :=
  C1_find_first_match [sampleTask "aa11" "n1"] "a" 0 (by decide) (by decide)
    (fun j h => absurd h (Nat.not_lt_zero j))

/-- C4 counterexample: with the backing file present but unreadable, the
task-loading step of `TaskManager::new` propagates the I/O error instead of
constructing an empty registry, for any parser. -/
theorem C4_counterexample :
    loadTasks (fun _ => none) FileState.unreadable = Except.error HErr.Io :=
  rfl

/-- C4 (amended): loading the registry at startup yields an empty collection
when the backing file is absent or when its content is malformed (the parser
rejects it), but a file that exists and cannot be read fails the startup
with the propagated I/O error. -/
theorem C4_load_fallback (parse : String → Option (List Task)) (s : String)
    (hmal : parse s = none) :
    loadTasks parse FileState.absent = Except.ok [] ∧
    loadTasks parse (FileState.content s) = Except.ok [] ∧
    loadTasks parse FileState.unreadable = Except.error HErr.Io := by
  refine ⟨rfl, ?_, rfl⟩
  simp [loadTasks, hmal]

theorem C4_witness :
    loadTasks (fun _ => none) (FileState.content "not json") = Except.ok [] :=
  (C4_load_fallback (fun _ => none) "not json" rfl).2.1

theorem backupPath_ne (p : String) : backupPath p ≠ p := by
  intro h
  have h2 : (backupPath p).length = p.length := congrArg String.length h
  rw [backupPath, String.length_append] at h2
  have h4 : (".old" : String).length = 4 := rfl
  omega

/-- C8: log rotation.  A file strictly larger than `MAX_LOG_SIZE` is moved
onto its `.old` sibling (any previous backup being overwritten, so exactly
one prior generation remains) and the live path becomes empty; a file of
size at most the threshold, or a missing file, leaves the filesystem
untouched. -/
theorem C8_rotate (fs : SizeFs) (p : String) (sz : Nat) :
    (fs p = some sz → sz > MAX_LOG_SIZE →
      rotate_log_if_needed fs p p = none ∧
      rotate_log_if_needed fs p (backupPath p) = some sz ∧
      ∀ q, q ≠ p → q ≠ backupPath p → rotate_log_if_needed fs p q = fs q) ∧
    (fs p = some sz → sz ≤ MAX_LOG_SIZE → rotate_log_if_needed fs p = fs) ∧
    (fs p = none → rotate_log_if_needed fs p = fs) := by
  refine ⟨fun h hgt => ?_, fun h hle => ?_, fun h => ?_⟩
  · refine ⟨?_, ?_, fun q hq hqb => ?_⟩
    · simp [rotate_log_if_needed, h, hgt]
    · simp [rotate_log_if_needed, h, hgt, backupPath_ne p]
    · simp [rotate_log_if_needed, h, hgt, hq, hqb]
  · simp [rotate_log_if_needed, h, Nat.not_lt_of_le hle]
  · simp [rotate_log_if_needed, h]

theorem C8_witness :
    rotate_log_if_needed
      (fun q => if q = "a.log" then some (MAX_LOG_SIZE + 1) else none)
      "a.log" "a.log" = none ∧
    rotate_log_if_needed
      (fun q => if q = "a.log" then some (MAX_LOG_SIZE + 1) else none)
      "a.log" (backupPath "a.log") = some (MAX_LOG_SIZE + 1) ∧
    rotate_log_if_needed
      (fun q => if q = "b.log" then some MAX_LOG_SIZE else none)
      "b.log" = (fun q => if q = "b.log" then some MAX_LOG_SIZE else none) := by
  have h1 := (C8_rotate
    (fun q => if q = "a.log" then some (MAX_LOG_SIZE + 1) else none)
    "a.log" (MAX_LOG_SIZE + 1)).1 (by simp) (Nat.lt_succ_self _)
  have h2 := (C8_rotate
    (fun q => if q = "b.log" then some MAX_LOG_SIZE else none)
    "b.log" MAX_LOG_SIZE).2.1 (by simp) (Nat.le_refl _)
  exact ⟨h1.1, h1.2.1, h2⟩

/-- C9: tailing a log.  For an existing file the result is exactly the
final `min n L` lines in file order (the whole file when `L ≤ n`); a missing
file yields success with the single sentinel line. -/
theorem C9_tail (ls : List String) (n : Nat) :
    read_log_lines (some ls) n = ls.drop (ls.length - n) ∧
    (read_log_lines (some ls) n).length = min n ls.length ∧
    ls.take (ls.length - n) ++ read_log_lines (some ls) n = ls ∧
    (ls.length ≤ n → read_log_lines (some ls) n = ls) ∧
    read_log_lines none n = ["Log file not found or empty"] := by
  have hstart : (if ls.length > n then ls.length - n else 0) = ls.length - n := by
    split <;> omega
  refine ⟨?_, ?_, ?_, fun h => ?_, rfl⟩
  · simp only [read_log_lines, hstart]
  · simp only [read_log_lines, hstart, List.length_drop]
    omega
  · simp only [read_log_lines, hstart, List.take_append_drop]
  · have hz : ls.length - n = 0 := by omega
    have h1 : read_log_lines (some ls) n = ls.drop (ls.length - n) := by
      simp only [read_log_lines, hstart]
    rw [h1, hz, List.drop_zero]

theorem C9_witness :
    read_log_lines (some ["l1", "l2", "l3"]) 2 = ["l2", "l3"] ∧
    read_log_lines (some ["l1"]) 5 = ["l1"] ∧
    read_log_lines none 5 = ["Log file not found or empty"] := by
  refine ⟨?_, (C9_tail ["l1"] 5).2.2.2.1 (by decide), (C9_tail [] 5).2.2.2.2⟩
  have h := (C9_tail ["l1", "l2", "l3"] 2).1
  simpa using h

/-- Shape of the `kill(2)` trace of `ProcessManager::stop_task`: either no
signal at all (the pid was already dead), or a SIGTERM part — group only, or
group followed by the pid fallback after a failed group delivery — possibly
followed by a SIGKILL part of the same structure, stamped one grace period
later. -/
theorem pm_stop_events_shape (env : Env) (pm : List String) (task_id : String)
    (pid : Nat) :
    (pm_stop_task env pm task_id pid).events = [] ∨
    ∃ tp kp, (pm_stop_task env pm task_id pid).events = tp ++ kp ∧
      (tp = [⟨-(pid : Int), Sig.term, 0⟩] ∨
        (tp = [⟨-(pid : Int), Sig.term, 0⟩, ⟨(pid : Int), Sig.term, 0⟩] ∧
          env.deliver (-(pid : Int)) Sig.term = false)) ∧
      (kp = [] ∨ kp = [⟨-(pid : Int), Sig.kill, SHUTDOWN_TIMEOUT_MS⟩] ∨
        (kp = [⟨-(pid : Int), Sig.kill, SHUTDOWN_TIMEOUT_MS⟩,
               ⟨(pid : Int), Sig.kill, SHUTDOWN_TIMEOUT_MS⟩] ∧
          env.deliver (-(pid : Int)) Sig.kill = false)) := by
  unfold pm_stop_task pmStopAfterTerm
  by_cases h0 : env.aliveAt 0 pid = true
  · rw [if_pos h0]
    by_cases h1 : env.deliver (-(pid : Int)) Sig.term = true
    · rw [if_pos h1]
      by_cases h2 : env.aliveAt 2 pid = true
      · rw [if_pos h2]
        by_cases h3 : env.deliver (-(pid : Int)) Sig.kill = true
        · rw [if_pos h3]
          exact Or.inr ⟨_, _, rfl, Or.inl rfl, Or.inr (Or.inl rfl)⟩
        · rw [if_neg h3]
          have h3f : env.deliver (-(pid : Int)) Sig.kill = false := by
            simpa using h3
          by_cases h4 : env.deliver (pid : Int) Sig.kill = true
          · rw [if_pos h4]
            exact Or.inr ⟨_, _, rfl, Or.inl rfl, Or.inr (Or.inr ⟨rfl, h3f⟩)⟩
          · rw [if_neg h4]
            by_cases h5 : env.aliveAt 3 pid = true
            · rw [if_pos h5]
              exact Or.inr ⟨_, _, rfl, Or.inl rfl, Or.inr (Or.inr ⟨rfl, h3f⟩)⟩
            · rw [if_neg h5]
              exact Or.inr ⟨_, _, rfl, Or.inl rfl, Or.inr (Or.inr ⟨rfl, h3f⟩)⟩
      · rw [if_neg h2]
        exact Or.inr ⟨_, [], (List.append_nil _).symm, Or.inl rfl, Or.inl rfl⟩
    · rw [if_neg h1]
      have h1f : env.deliver (-(pid : Int)) Sig.term = false := by simpa using h1
      by_cases h1p : env.deliver (pid : Int) Sig.term = true
      · rw [if_pos h1p]
        by_cases h2 : env.aliveAt 2 pid = true
        · rw [if_pos h2]
          by_cases h3 : env.deliver (-(pid : Int)) Sig.kill = true
          · rw [if_pos h3]
            exact Or.inr ⟨_, _, rfl, Or.inr ⟨rfl, h1f⟩, Or.inr (Or.inl rfl)⟩
          · rw [if_neg h3]
            have h3f : env.deliver (-(pid : Int)) Sig.kill = false := by
              simpa using h3
            by_cases h4 : env.deliver (pid : Int) Sig.kill = true
            · rw [if_pos h4]
              exact Or.inr ⟨_, _, rfl, Or.inr ⟨rfl, h1f⟩,
                Or.inr (Or.inr ⟨rfl, h3f⟩)⟩
            · rw [if_neg h4]
              by_cases h5 : env.aliveAt 3 pid = true
              · rw [if_pos h5]
                exact Or.inr ⟨_, _, rfl, Or.inr ⟨rfl, h1f⟩,
                  Or.inr (Or.inr ⟨rfl, h3f⟩)⟩
              · rw [if_neg h5]
                exact Or.inr ⟨_, _, rfl, Or.inr ⟨rfl, h1f⟩,
                  Or.inr (Or.inr ⟨rfl, h3f⟩)⟩
        · rw [if_neg h2]
          exact Or.inr ⟨_, [], (List.append_nil _).symm,
            Or.inr ⟨rfl, h1f⟩, Or.inl rfl⟩
      · rw [if_neg h1p]
        by_cases hq : env.aliveAt 1 pid = true
        · rw [if_pos hq]
          exact Or.inr ⟨_, [], (List.append_nil _).symm,
            Or.inr ⟨rfl, h1f⟩, Or.inl rfl⟩
        · rw [if_neg hq]
          exact Or.inr ⟨_, [], (List.append_nil _).symm,
            Or.inr ⟨rfl, h1f⟩, Or.inl rfl⟩
  · rw [if_neg h0]
    exact Or.inl rfl

/-- C5: stopping a live process sends SIGKILL only one full grace period
(`SHUTDOWN_TIMEOUT_MS`) after SIGTERM, never before (every SIGKILL in the
trace is timestamped at least `SHUTDOWN_TIMEOUT_MS` after every SIGTERM, and
a SIGTERM is always present when a SIGKILL is); and any directly
pid-targeted delivery only happens as a fallback: the same signal was
already sent to the process group and that group delivery failed. -/
theorem C5_signal_escalation (env : Env) (pm : List String) (task_id : String)
    (pid : Nat) (hpid : 0 < pid) :
    (∀ e ∈ (pm_stop_task env pm task_id pid).events, e.sig = Sig.kill →
      (∃ e2 ∈ (pm_stop_task env pm task_id pid).events, e2.sig = Sig.term) ∧
      ∀ e2 ∈ (pm_stop_task env pm task_id pid).events, e2.sig = Sig.term →
        e2.time + SHUTDOWN_TIMEOUT_MS ≤ e.time) ∧
    (∀ e ∈ (pm_stop_task env pm task_id pid).events, 0 ≤ e.target →
      SigEvent.mk (-(pid : Int)) e.sig e.time ∈
        (pm_stop_task env pm task_id pid).events ∧
      env.deliver (-(pid : Int)) e.sig = false) := by
  have hneg : ¬ (0 : Int) ≤ -(pid : Int) := by omega
  rcases pm_stop_events_shape env pm task_id pid with h | ⟨tp, kp, he, htp, hkp⟩
  · rw [h]; simp
  · rw [he]
    have htmem : SigEvent.mk (-(pid : Int)) Sig.term 0 ∈ tp := by
      rcases htp with h1 | ⟨h1, _⟩ <;> rw [h1] <;> simp
    have htsig : ∀ e ∈ tp, e.sig = Sig.term ∧ e.time = 0 := by
      rcases htp with h1 | ⟨h1, _⟩
      · subst h1
        intro e he1
        simp at he1
        subst he1
        exact ⟨rfl, rfl⟩
      · subst h1
        intro e he1
        simp at he1
        rcases he1 with rfl | rfl
        · exact ⟨rfl, rfl⟩
        · exact ⟨rfl, rfl⟩
    have hksig : ∀ e ∈ kp, e.sig = Sig.kill ∧ e.time = SHUTDOWN_TIMEOUT_MS := by
      rcases hkp with h1 | h1 | ⟨h1, _⟩
      · subst h1
        intro e he1
        simp at he1
      · subst h1
        intro e he1
        simp at he1
        subst he1
        exact ⟨rfl, rfl⟩
      · subst h1
        intro e he1
        simp at he1
        rcases he1 with rfl | rfl
        · exact ⟨rfl, rfl⟩
        · exact ⟨rfl, rfl⟩
    constructor
    · intro e hme hek
      refine ⟨⟨SigEvent.mk (-(pid : Int)) Sig.term 0,
        List.mem_append_left _ htmem, rfl⟩, ?_⟩
      intro e2 hme2 het2
      have hetime : e.time = SHUTDOWN_TIMEOUT_MS := by
        rcases List.mem_append.mp hme with h1 | h1
        · exact absurd hek (by simp [(htsig e h1).1])
        · exact (hksig e h1).2
      have he2time : e2.time = 0 := by
        rcases List.mem_append.mp hme2 with h1 | h1
        · exact (htsig e2 h1).2
        · exact absurd het2 (by simp [(hksig e2 h1).1])
      rw [hetime, he2time]
      omega
    · intro e hme hpos
      rcases List.mem_append.mp hme with h1 | h1
      · rcases htp with h2 | ⟨h2, hdt⟩
        · subst h2
          simp at h1
          subst h1
          exact absurd hpos hneg
        · subst h2
          simp at h1
          rcases h1 with rfl | rfl
          · exact absurd hpos hneg
          · refine ⟨List.mem_append_left _ ?_, hdt⟩
            simp
      · rcases hkp with h2 | h2 | ⟨h2, hdk⟩
        · subst h2
          simp at h1
        · subst h2
          simp at h1
          subst h1
          exact absurd hpos hneg
        · subst h2
          simp at h1
          rcases h1 with rfl | rfl
          · exact absurd hpos hneg
          · refine ⟨List.mem_append_right _ ?_, hdk⟩
            simp

theorem C5_witness :
    SigEvent.mk (-(5 : Int)) Sig.term 0 ∈
      (pm_stop_task
        { aliveAt := fun k _ => k == 0,
          deliver := fun t _ => decide (0 ≤ t),
          spawn := fun _ => Except.ok 1,
          workdirExists := fun _ => true,
          rotateOk := fun _ => true,
          tryWait := fun _ => TryWait.stillRunning,
          envFile := fun _ => none, now := "t0" } [] "tid" 5).events ∧
    decide ((0 : Int) ≤ -(5 : Int)) = false := by
  have h := (C5_signal_escalation
    { aliveAt := fun k _ => k == 0,
      deliver := fun t _ => decide (0 ≤ t),
      spawn := fun _ => Except.ok 1,
      workdirExists := fun _ => true,
      rotateOk := fun _ => true,
      tryWait := fun _ => TryWait.stillRunning,
      envFile := fun _ => none, now := "t0" } [] "tid" 5 (by decide)).2
    (SigEvent.mk (5 : Int) Sig.term 0) (by decide) (by decide)
  exact h

/-- C6: stopping an already-stopped task.  When the resolved task's status is
not `Running` (its pid is already `none` under the registry invariant), the
stop returns success and leaves the state untouched; when its status is
`Running` but the recorded pid fails the liveness probe, the stop returns
success and the task ends `Stopped` with `pid = none`; and in the
supervisor, stopping an already-dead pid is an immediate success that only
drops the tracked handle and sends no signal. -/
theorem C6_stop_already_stopped (env : Env) (s : MState) (ident : String)
    (task : Task) (hfind : find_task s.tasks ident = some task)
    (hinv : Inv s.tasks) :
    (task.status ≠ TaskStatus.Running →
      stop_task env s ident = (Except.ok (), s) ∧ task.pid = none) ∧
    (∀ p, task.status = TaskStatus.Running → task.pid = some p →
      env.aliveAt 0 p = false →
      (stop_task env s ident).1 = Except.ok () ∧
      find_task (stop_task env s ident).2.tasks ident =
        some { task with status := TaskStatus.Stopped, pid := none }) ∧
    (∀ pm tid p, env.aliveAt 0 p = false →
      pm_stop_task env pm tid p =
        { result := Except.ok (), pm := pmRemove pm tid, events := [] }) := by
  have hmem : task ∈ s.tasks := List.mem_of_find?_eq_some hfind
  refine ⟨fun hst => ?_, fun p hst hp halive => ?_, fun pm tid p halive => ?_⟩
  · have hpid : task.pid = none := by
      by_contra hne
      exact hst (hinv task hmem hne)
    refine ⟨?_, hpid⟩
    simp only [stop_task, hfind]
    rw [if_neg hst]
  · have h1 : stop_task env s ident =
        (Except.ok (), save { s with
          tasks := updateFirst (fun t => matchesIdent t ident)
            (fun t => { t with status := TaskStatus.Stopped, pid := none })
            s.tasks }) := by
      simp only [stop_task, hfind]
      rw [if_pos hst, hp]
      simp [halive]
    rw [h1]
    refine ⟨rfl, ?_⟩
    simp only [save]
    exact find?_updateFirst _ _ _ _ hfind (fun u => rfl)
  · unfold pm_stop_task
    rw [if_neg (by simp [halive])]

theorem C6_witness :
    stop_task
      { aliveAt := fun _ _ => false, deliver := fun _ _ => true,
        spawn := fun _ => Except.ok 1, workdirExists := fun _ => true,
        rotateOk := fun _ => true, tryWait := fun _ => TryWait.stillRunning,
        envFile := fun _ => none, now := "t0" }
      { tasks := [sampleTask "id01" "n1"], pm := [], trace := [] } "n1" =
      (Except.ok (),
        { tasks := [sampleTask "id01" "n1"], pm := [], trace := [] }) ∧
    (sampleTask "id01" "n1").pid = none :=
  (C6_stop_already_stopped
    { aliveAt := fun _ _ => false, deliver := fun _ _ => true,
      spawn := fun _ => Except.ok 1, workdirExists := fun _ => true,
      rotateOk := fun _ => true, tryWait := fun _ => TryWait.stillRunning,
      envFile := fun _ => none, now := "t0" }
    { tasks := [sampleTask "id01" "n1"], pm := [], trace := [] } "n1"
    (sampleTask "id01" "n1") (by decide) (by decide)).1 (by decide)

theorem lec_updateFirst (p : Task → Bool) (f : Task → Task) (ts : List Task)
    (hf : ∀ u, (f u).last_exit_code = u.last_exit_code) :
    lec (updateFirst p f ts) = lec ts :=
  map_updateFirst Task.last_exit_code p f ts hf

/-- The registry after `start_task_body`: unchanged (an error before the
spawn), or the first `ident` match marked `Failed` (spawn error), or marked
`Running` with some fresh pid (spawn success). -/
theorem start_task_body_tasks_shape (env : Env) (s : MState) (task : Task)
    (ident : String) :
    (start_task_body env s task ident).2.tasks = s.tasks ∨
    (start_task_body env s task ident).2.tasks
      = updateFirst (fun t => matchesIdent t ident)
          (fun t => { t with status := TaskStatus.Failed }) s.tasks ∨
    ∃ p, (start_task_body env s task ident).2.tasks
      = updateFirst (fun t => matchesIdent t ident)
          (fun t =>
            { t with status := TaskStatus.Running, pid := some p,
                     last_started := some env.now }) s.tasks := by
  unfold start_task_body
  by_cases h1 : (!wdExistsOk env task.workdir) = true
  · rw [if_pos h1]
    exact Or.inl rfl
  · rw [if_neg h1]
    by_cases h2 : (!env.rotateOk (stdoutLogPath task.id)) = true
    · rw [if_pos h2]
      exact Or.inl rfl
    · rw [if_neg h2]
      by_cases h3 : (!env.rotateOk (stderrLogPath task.id)) = true
      · rw [if_pos h3]
        exact Or.inl rfl
      · rw [if_neg h3]
        rcases hs : env.spawn task.id with e | p
        · refine Or.inr (Or.inl ?_)
          simp only [hs, save]
        · refine Or.inr (Or.inr ⟨p, ?_⟩)
          simp only [hs, save]

/-- The registry after `stop_task`: unchanged, or the first `ident` match
marked `Stopped` with its pid cleared. -/
theorem stop_task_tasks_shape (env : Env) (s : MState) (ident : String) :
    (stop_task env s ident).2.tasks = s.tasks ∨
    (stop_task env s ident).2.tasks
      = updateFirst (fun t => matchesIdent t ident)
          (fun t => { t with status := TaskStatus.Stopped, pid := none })
          s.tasks := by
  unfold stop_task
  rcases hf : find_task s.tasks ident with _ | task <;> simp only [hf]
  · exact Or.inl trivial
  · by_cases hst : task.status = TaskStatus.Running
    · rw [if_pos hst]
      rcases hp : task.pid with _ | p <;> simp only [hp]
      · simp [save]
      · by_cases ha : (!env.aliveAt 0 p) = true
        · rw [if_pos ha]
          simp [save]
        · rw [if_neg ha]
          rcases hr : (pm_stop_task env s.pm task.id p).result with e | u <;>
            simp [hr, save]
    · rw [if_neg hst]
      exact Or.inl rfl

/-- The registry after `start_task`: possibly a stale-death reconciliation
of the first `ident` match (`Failed`, pid cleared), then the
`start_task_body` shapes on top of it. -/
theorem start_task_tasks_shape (env : Env) (s : MState) (ident : String) :
    ∃ base,
      (base = s.tasks ∨
        base = updateFirst (fun t => matchesIdent t ident)
          (fun t => { t with status := TaskStatus.Failed, pid := none })
          s.tasks) ∧
      ((start_task env s ident).2.tasks = base ∨
       (start_task env s ident).2.tasks
         = updateFirst (fun t => matchesIdent t ident)
             (fun t => { t with status := TaskStatus.Failed }) base ∨
       ∃ p, (start_task env s ident).2.tasks
         = updateFirst (fun t => matchesIdent t ident)
             (fun t =>
               { t with status := TaskStatus.Running, pid := some p,
                        last_started := some env.now }) base) := by
  unfold start_task
  rcases hf : find_task s.tasks ident with _ | task <;> simp only [hf]
  · exact ⟨s.tasks, Or.inl rfl, Or.inl rfl⟩
  · rcases hst : task.status <;> rcases hp : task.pid with _ | p <;>
      simp only [hst, hp]
    case Running.some =>
      by_cases ha : env.aliveAt 0 p = true
      · rw [if_pos ha]
        exact ⟨s.tasks, Or.inl rfl, Or.inl rfl⟩
      · rw [if_neg ha]
        refine ⟨updateFirst (fun t => matchesIdent t ident)
          (fun t => { t with status := TaskStatus.Failed, pid := none })
          s.tasks, Or.inr rfl, ?_⟩
        have h := start_task_body_tasks_shape env
          (save { s with
            tasks := updateFirst (fun t => matchesIdent t ident)
              (fun t => { t with status := TaskStatus.Failed, pid := none })
              s.tasks }) task ident
        simpa [save] using h
    all_goals exact ⟨s.tasks, Or.inl rfl,
      start_task_body_tasks_shape env s task ident⟩

theorem lec_start_task (env : Env) (s : MState) (ident : String) :
    lec (start_task env s ident).2.tasks = lec s.tasks := by
  rcases start_task_tasks_shape env s ident with ⟨base, hb, hr⟩
  have hbase : lec base = lec s.tasks := by
    rcases hb with rfl | rfl
    · rfl
    · exact lec_updateFirst _ _ _ (fun u => rfl)
  rcases hr with h | h | ⟨p, h⟩ <;> rw [h]
  · exact hbase
  · refine Eq.trans (lec_updateFirst _ _ _ ?_) hbase
    exact fun u => rfl
  · refine Eq.trans (lec_updateFirst _ _ _ ?_) hbase
    exact fun u => rfl

theorem lec_stop_task (env : Env) (s : MState) (ident : String) :
    lec (stop_task env s ident).2.tasks = lec s.tasks := by
  rcases stop_task_tasks_shape env s ident with h | h <;> rw [h]
  refine Eq.trans (lec_updateFirst _ _ _ ?_) rfl
  exact fun u => rfl

theorem refresh_tasks_eq (env : Env) (s : MState) :
    (refresh_task_statuses env s).tasks = s.tasks.map (refreshTask env) := by
  unfold refresh_task_statuses
  split <;> simp [save]

theorem lec_refresh (env : Env) (s : MState) :
    lec (refresh_task_statuses env s).tasks = lec s.tasks := by
  rw [refresh_tasks_eq]
  unfold lec
  rw [List.map_map]
  refine List.map_congr_left (fun t _ => ?_)
  unfold Function.comp refreshTask
  split <;> rfl

theorem cleanup_tasks_eq (env : Env) (s : MState) :
    (cleanup env s).tasks
      = s.tasks.map (cleanupTask env (cleanup_zombies env s.pm).2) := by
  unfold cleanup
  split <;> simp [save]

theorem lec_restart_stage (s : MState) (id : String) :
    lec (restartSleep (restartIncr s id)).tasks = lec s.tasks := by
  simp only [restartSleep, restartIncr, save]
  refine Eq.trans (lec_updateFirst _ _ _ ?_) rfl
  exact fun u => rfl

theorem lec_restartIter (env : Env) (s : MState) (id : String) :
    lec (restartIter env s id).tasks = lec s.tasks := by
  unfold restartIter
  rcases hf : s.tasks.find? (fun t => t.id == id) with _ | t
  · simp only [hf]
  · simp only [hf]
    have h2 := lec_start_task env (restartSleep (restartIncr s id)) t.name
    rw [lec_restart_stage] at h2
    rcases hstart : start_task env (restartSleep (restartIncr s id)) t.name
      with ⟨r, s3⟩
    rw [hstart] at h2
    rcases r with e | _ <;> simp only [hstart]
    · simp only [save]
      refine Eq.trans (lec_updateFirst _ _ _ ?_) h2
      exact fun u => rfl
    · exact h2

theorem lec_restart_pass (env : Env) (s : MState) :
    lec (check_and_restart_tasks env s).tasks = lec s.tasks := by
  unfold check_and_restart_tasks
  generalize restartSelect s.tasks = ids
  induction ids generalizing s with
  | nil => rfl
  | cons id rest ih =>
    simp only [List.foldl_cons]
    rw [ih (restartIter env s id), lec_restartIter]

theorem lec_eraseIdx (ts : List Task) (i : Nat) :
    lec (ts.eraseIdx i) = (lec ts).eraseIdx i := by
  unfold lec
  induction ts generalizing i with
  | nil => rfl
  | cons t ts ih =>
    cases i with
    | zero => rfl
    | succ k => simp [List.eraseIdx, ih]

theorem lec_create_task (env : Env) (s : MState) (name binary : String)
    (args env_vars : List String) (workdir : Option String) (ar : Bool)
    (freshId : String) :
    lec (create_task env s name binary args env_vars workdir ar
      freshId).2.tasks = lec s.tasks ∨
    lec (create_task env s name binary args env_vars workdir ar
      freshId).2.tasks = lec s.tasks ++ [none] := by
  unfold create_task
  by_cases hn : (s.tasks.any (fun t => t.name == name)) = true
  · rw [if_pos hn]
    exact Or.inl rfl
  · rw [if_neg hn]
    rcases hp : parseEnvVars [] env_vars with e | e0 <;> simp only [hp]
    · exact Or.inl trivial
    · refine Or.inr ?_
      simp [lec, save, Task.new]

theorem lec_remove_task (env : Env) (s : MState) (ident : String) :
    lec (remove_task env s ident).2.tasks = lec s.tasks ∨
    ∃ i, lec (remove_task env s ident).2.tasks = (lec s.tasks).eraseIdx i := by
  unfold remove_task
  rcases hi : s.tasks.findIdx? (fun t => matchesIdent t ident) with _ | i <;>
    simp only [hi]
  · exact Or.inl trivial
  · by_cases hr : ((s.tasks.get? i).map Task.status) = some TaskStatus.Running
    · rw [if_pos hr]
      have hl := lec_stop_task env s ident
      rcases hs : stop_task env s ident with ⟨r, s1⟩
      rw [hs] at hl
      rcases r with e | _ <;> simp only [hs]
      · exact Or.inl hl
      · refine Or.inr ⟨i, ?_⟩
        simp only [save]
        rw [lec_eraseIdx, hl]
    · rw [if_neg hr]
      refine Or.inr ⟨i, ?_⟩
      simp only [save]
      rw [lec_eraseIdx]

theorem cleanup_zombies_codes (env : Env) (pm : List String) (id : String)
    (c : Int) :
    ((id, c) ∈ (cleanup_zombies env pm).2) ↔
      (id ∈ pm ∧ env.tryWait id = TryWait.exited (some c)) := by
  unfold cleanup_zombies
  simp only [List.mem_filterMap]
  constructor
  · rintro ⟨a, ha, hf⟩
    rcases htw : env.tryWait a with code | _ | _ <;> rw [htw] at hf
    · rcases code with _ | c0
      · simp at hf
      · simp at hf
        rcases hf with ⟨rfl, rfl⟩
        exact ⟨ha, by rw [htw]⟩
    · simp at hf
    · simp at hf
  · rintro ⟨hin, htw⟩
    exact ⟨id, hin, by rw [htw]⟩

/-- C2: the two reconciliation paths.  For a task whose OS process died
while it was `Running`: the signal-probe refresh turns it `Stopped` with the
pid cleared (and never touches `last_exit_code`); the zombie-reap cleanup
turns it `Failed` with the pid cleared and stores the reaped exit code when
`cleanup_zombies` produced one for its id (exactly the tracked handles whose
`try_wait` reported an exit code); and no other operation — start, stop,
refresh, the restart pass, create (the new task starts with no exit code),
remove (only deletes a record) — ever changes a `last_exit_code` field. -/
theorem C2_reconciliation_paths (env : Env) (s : MState) :
    (∀ t p, t.status = TaskStatus.Running → t.pid = some p →
      env.aliveAt 0 p = false →
      refreshTask env t =
        { t with status := TaskStatus.Stopped, pid := none }) ∧
    (refresh_task_statuses env s).tasks = s.tasks.map (refreshTask env) ∧
    (∀ t p, t.status = TaskStatus.Running → t.pid = some p →
      env.aliveAt 0 p = false →
      (∀ c, ((cleanup_zombies env s.pm).2).lookup t.id = some c →
        cleanupTask env (cleanup_zombies env s.pm).2 t =
          { t with status := TaskStatus.Failed, pid := none,
                   last_exit_code := some c }) ∧
      (((cleanup_zombies env s.pm).2).lookup t.id = none →
        cleanupTask env (cleanup_zombies env s.pm).2 t =
          { t with status := TaskStatus.Failed, pid := none })) ∧
    (cleanup env s).tasks
      = s.tasks.map (cleanupTask env (cleanup_zombies env s.pm).2) ∧
    (∀ id c, (id, c) ∈ (cleanup_zombies env s.pm).2 ↔
      id ∈ s.pm ∧ env.tryWait id = TryWait.exited (some c)) ∧
    (∀ ident, lec (start_task env s ident).2.tasks = lec s.tasks) ∧
    (∀ ident, lec (stop_task env s ident).2.tasks = lec s.tasks) ∧
    lec (refresh_task_statuses env s).tasks = lec s.tasks ∧
    lec (check_and_restart_tasks env s).tasks = lec s.tasks ∧
    (∀ name binary args env_vars workdir ar freshId,
      lec (create_task env s name binary args env_vars workdir ar
        freshId).2.tasks = lec s.tasks ∨
      lec (create_task env s name binary args env_vars workdir ar
        freshId).2.tasks = lec s.tasks ++ [none]) ∧
    (∀ ident, lec (remove_task env s ident).2.tasks = lec s.tasks ∨
      ∃ i, lec (remove_task env s ident).2.tasks
        = (lec s.tasks).eraseIdx i) := by
  refine ⟨?_, refresh_tasks_eq env s, ?_, cleanup_tasks_eq env s,
    fun id c => cleanup_zombies_codes env s.pm id c,
    fun ident => lec_start_task env s ident,
    fun ident => lec_stop_task env s ident,
    lec_refresh env s, lec_restart_pass env s,
    fun name binary args env_vars workdir ar freshId =>
      lec_create_task env s name binary args env_vars workdir ar freshId,
    fun ident => lec_remove_task env s ident⟩
  · intro t p hst hp halive
    simp [refreshTask, refreshHit, hst, hp, halive]
  · intro t p hst hp halive
    constructor
    · intro c hc
      simp [cleanupTask, cleanupHit, refreshHit, hst, hp, halive, hc]
    · intro hc
      simp [cleanupTask, cleanupHit, refreshHit, hst, hp, halive, hc]

theorem C2_witness :
    refreshTask c2Env c2Task =
      { c2Task with status := TaskStatus.Stopped, pid := none } ∧
    cleanupTask c2Env (cleanup_zombies c2Env ["id01"]).2 c2Task =
      { c2Task with status := TaskStatus.Failed, pid := none,
                    last_exit_code := some 7 } := by
  have h := C2_reconciliation_paths c2Env
    { tasks := [c2Task], pm := ["id01"], trace := [] }
  refine ⟨h.1 c2Task 5 rfl rfl rfl, ?_⟩
  exact (h.2.2.1 c2Task 5 rfl rfl rfl).1 7 (by decide)

theorem start_task_body_no_conflict (env : Env) (s : MState) (task : Task)
    (ident : String) (name : String) :
    (start_task_body env s task ident).1
      ≠ Except.error (HErr.TaskAlreadyRunning name) := by
  unfold start_task_body
  by_cases h1 : (!wdExistsOk env task.workdir) = true
  · rw [if_pos h1]
    simp
  · rw [if_neg h1]
    by_cases h2 : (!env.rotateOk (stdoutLogPath task.id)) = true
    · rw [if_pos h2]
      simp
    · rw [if_neg h2]
      by_cases h3 : (!env.rotateOk (stderrLogPath task.id)) = true
      · rw [if_pos h3]
        simp
      · rw [if_neg h3]
        rcases hs : env.spawn task.id with e | p <;> simp only [hs]
        · cases e <;> simp [SpawnErr.toH]
        · simp

/-- C10: `start_task` reports `TaskAlreadyRunning` exactly for a resolved
task whose status is `Running`, whose pid field is present, and whose pid
still answers the liveness probe; in the edge case status `Running` with
`pid = none` there is no conflict — the spawn proceeds and, when the
workdir check, both log rotations and the spawn succeed, `start_task`
returns success. -/
theorem C10_start_conflict_semantics (env : Env) (s : MState)
    (ident : String) :
    (∀ name, (start_task env s ident).1
        = Except.error (HErr.TaskAlreadyRunning name) →
      ∃ t p, find_task s.tasks ident = some t ∧ t.name = name ∧
        t.status = TaskStatus.Running ∧ t.pid = some p ∧
        env.aliveAt 0 p = true) ∧
    (∀ t, find_task s.tasks ident = some t → t.status = TaskStatus.Running →
      t.pid = none → wdExistsOk env t.workdir = true →
      env.rotateOk (stdoutLogPath t.id) = true →
      env.rotateOk (stderrLogPath t.id) = true →
      ∀ p, env.spawn t.id = Except.ok p →
      (start_task env s ident).1 = Except.ok ()) := by
  constructor
  · intro name h
    unfold start_task at h
    rcases hf : find_task s.tasks ident with _ | task <;> rw [hf] at h
    · simp at h
    · rcases hst : task.status <;> rcases hp : task.pid with _ | p <;>
        simp only [hst, hp] at h
      case Running.some =>
        by_cases ha : env.aliveAt 0 p = true
        · exact ⟨task, p, rfl, by
            rw [if_pos ha] at h
            exact HErr.TaskAlreadyRunning.inj (Except.error.inj h),
            hst, hp, ha⟩
        · rw [if_neg ha] at h
          exact absurd h (start_task_body_no_conflict _ _ _ _ _)
      all_goals exact absurd h (start_task_body_no_conflict _ _ _ _ _)
  · intro t hf hst hp hwd hr1 hr2 p hs
    unfold start_task
    rw [hf]
    simp only [hst, hp]
    unfold start_task_body
    rw [if_neg (by simp [hwd])]
    rw [if_neg (by simp [hr1])]
    rw [if_neg (by simp [hr2])]
    simp only [hs]

theorem C10_witness :
    (start_task
      { aliveAt := fun _ _ => true, deliver := fun _ _ => true,
        spawn := fun _ => Except.ok 9, workdirExists := fun _ => true,
        rotateOk := fun _ => true, tryWait := fun _ => TryWait.stillRunning,
        envFile := fun _ => none, now := "t2" }
      { tasks := [{ sampleTask "id02" "n2" with
          status := TaskStatus.Running, pid := none }], pm := [],
        trace := [] } "n2").1 = Except.ok () :=
  (C10_start_conflict_semantics
    { aliveAt := fun _ _ => true, deliver := fun _ _ => true,
      spawn := fun _ => Except.ok 9, workdirExists := fun _ => true,
      rotateOk := fun _ => true, tryWait := fun _ => TryWait.stillRunning,
      envFile := fun _ => none, now := "t2" }
    { tasks := [{ sampleTask "id02" "n2" with
        status := TaskStatus.Running, pid := none }], pm := [],
      trace := [] } "n2").2
    { sampleTask "id02" "n2" with status := TaskStatus.Running, pid := none }
    (by decide) rfl rfl rfl rfl rfl 9 rfl

theorem Inv_stop_task (env : Env) (s : MState) (ident : String)
    (hinv : Inv s.tasks) : Inv (stop_task env s ident).2.tasks := by
  rcases stop_task_tasks_shape env s ident with h | h <;> rw [h]
  · exact hinv
  · intro t ht hpid
    rcases mem_updateFirst _ _ _ _ ht with h1 | ⟨b, _, rfl⟩
    · exact hinv t h1 hpid
    · exact absurd rfl hpid

theorem Inv_start_task_body (env : Env) (s : MState) (task : Task)
    (ident : String) (hinv : Inv s.tasks)
    (hfm : ∀ u, s.tasks.find? (fun t => matchesIdent t ident) = some u →
      u.pid = none) :
    Inv (start_task_body env s task ident).2.tasks := by
  rcases start_task_body_tasks_shape env s task ident with h | h | ⟨p, h⟩ <;>
    rw [h]
  · exact hinv
  · intro t ht hpid
    rcases mem_updateFirst _ _ _ _ ht with h1 | ⟨b, hb, rfl⟩
    · exact hinv t h1 hpid
    · exact absurd (hfm b hb) hpid
  · intro t ht hpid
    rcases mem_updateFirst _ _ _ _ ht with h1 | ⟨b, hb, rfl⟩
    · exact hinv t h1 hpid
    · rfl

theorem Inv_start_task (env : Env) (s : MState) (ident : String)
    (hinv : Inv s.tasks) : Inv (start_task env s ident).2.tasks := by
  unfold start_task
  rcases hf : find_task s.tasks ident with _ | task <;> simp only [hf]
  · exact hinv
  · rcases hst : task.status <;> rcases hp : task.pid with _ | p <;>
      simp only [hst, hp]
    case Running.none =>
      refine Inv_start_task_body env s task ident hinv (fun u hu => ?_)
      have h1 : u = task := Option.some.inj (hu.symm.trans hf)
      rw [h1, hp]
    case Running.some =>
      by_cases ha : env.aliveAt 0 p = true
      · rw [if_pos ha]
        exact hinv
      · rw [if_neg ha]
        refine Inv_start_task_body env _ task ident ?_ ?_
        · intro t ht hpid
          simp only [save] at ht
          rcases mem_updateFirst _ _ _ _ ht with h1 | ⟨b, _, rfl⟩
          · exact hinv t h1 hpid
          · exact absurd rfl hpid
        · intro u hu
          simp only [save] at hu
          have h2 := find?_updateFirst (fun t => matchesIdent t ident)
            (fun t => { t with status := TaskStatus.Failed, pid := none })
            s.tasks task hf (fun v => rfl)
          have h3 : u = { task with status := TaskStatus.Failed, pid := none } :=
            Option.some.inj (hu.symm.trans h2)
          rw [h3]
    case Stopped.none =>
      refine Inv_start_task_body env s task ident hinv (fun u hu => ?_)
      have h1 : u = task := Option.some.inj (hu.symm.trans hf)
      rw [h1, hp]
    case Failed.none =>
      refine Inv_start_task_body env s task ident hinv (fun u hu => ?_)
      have h1 : u = task := Option.some.inj (hu.symm.trans hf)
      rw [h1, hp]
    all_goals {
      refine Inv_start_task_body env s task ident hinv (fun u hu => ?_)
      exact absurd (hinv task (List.mem_of_find?_eq_some hf) (by simp [hp]))
        (by simp [hst]) }

theorem Inv_create_task (env : Env) (s : MState) (name binary : String)
    (args env_vars : List String) (workdir : Option String) (ar : Bool)
    (freshId : String) (hinv : Inv s.tasks) :
    Inv (create_task env s name binary args env_vars workdir ar
      freshId).2.tasks := by
  unfold create_task
  by_cases hn : (s.tasks.any (fun t => t.name == name)) = true
  · rw [if_pos hn]
    exact hinv
  · rw [if_neg hn]
    rcases hp : parseEnvVars [] env_vars with e | e0 <;> simp only [hp]
    · exact hinv
    · intro t ht hpid
      simp only [save] at ht
      rcases List.mem_append.mp ht with h1 | h1
      · exact hinv t h1 hpid
      · simp only [List.mem_singleton] at h1
        rw [h1] at hpid
        exact absurd rfl hpid

theorem Inv_remove_task (env : Env) (s : MState) (ident : String)
    (hinv : Inv s.tasks) : Inv (remove_task env s ident).2.tasks := by
  unfold remove_task
  rcases hi : s.tasks.findIdx? (fun t => matchesIdent t ident) with _ | i <;>
    simp only [hi]
  · exact hinv
  · by_cases hr : ((s.tasks.get? i).map Task.status) = some TaskStatus.Running
    · rw [if_pos hr]
      have hstop := Inv_stop_task env s ident hinv
      rcases hs : stop_task env s ident with ⟨r, s1⟩
      rw [hs] at hstop
      rcases r with e | _ <;> simp only [hs]
      · exact hstop
      · intro t ht hpid
        simp only [save] at ht
        exact hstop t (List.eraseIdx_subset _ _ ht) hpid
    · rw [if_neg hr]
      intro t ht hpid
      simp only [save] at ht
      exact hinv t (List.eraseIdx_subset _ _ ht) hpid

theorem Inv_refresh (env : Env) (s : MState) (hinv : Inv s.tasks) :
    Inv (refresh_task_statuses env s).tasks := by
  rw [refresh_tasks_eq]
  intro t ht hpid
  rcases List.mem_map.mp ht with ⟨b, hb, rfl⟩
  unfold refreshTask at hpid ⊢
  by_cases hh : refreshHit env b = true
  · rw [if_pos hh] at hpid
    exact absurd rfl hpid
  · rw [if_neg hh] at hpid ⊢
    exact hinv b hb hpid

theorem Inv_cleanup (env : Env) (s : MState) (hinv : Inv s.tasks) :
    Inv (cleanup env s).tasks := by
  rw [cleanup_tasks_eq]
  intro t ht hpid
  rcases List.mem_map.mp ht with ⟨b, hb, rfl⟩
  unfold cleanupTask at hpid ⊢
  by_cases hh : cleanupHit env b = true
  · rw [if_pos hh] at hpid
    exact absurd rfl hpid
  · rw [if_neg hh] at hpid ⊢
    exact hinv b hb hpid

/-- C7 counterexample.  Registry: task `A` (id `"abc1"`, name `"a"`) is
`Running` with a live pid 7; task `B` (id `"zzz1"`, name `"abc"`) is
`Failed` with auto-restart on.  The restart pass selects `B`, and its start
attempt resolves the identifier `"abc"` — `B`'s name — to `A` by id-prefix,
fails with `TaskAlreadyRunning`, and then marks that resolved task `Failed`
without clearing its pid: after the pass `A` is `Failed` with `pid = Some 7`,
violating the invariant that held before. -/
theorem C7_counterexample :
    Inv c7State.tasks ∧
    ¬ Inv (check_and_restart_tasks c7Env c7State).tasks := by
  decide

/-- C7 (amended): the invariant "pid is `Some` only when status is
`Running`" is preserved by create, start, stop, remove, refresh and
cleanup; it is not preserved by the restart pass, which on a failed start
attempt marks the first match of the selected task's *name* `Failed`
without clearing its pid — when that identifier resolves to a different,
running task, the invariant breaks. -/
theorem C7_invariant_preserved (env : Env) (s : MState)
    (hinv : Inv s.tasks) :
    (∀ name binary args env_vars workdir ar freshId,
      Inv (create_task env s name binary args env_vars workdir ar
        freshId).2.tasks) ∧
    (∀ ident, Inv (start_task env s ident).2.tasks) ∧
    (∀ ident, Inv (stop_task env s ident).2.tasks) ∧
    (∀ ident, Inv (remove_task env s ident).2.tasks) ∧
    Inv (refresh_task_statuses env s).tasks ∧
    Inv (cleanup env s).tasks :=
  ⟨fun name binary args env_vars workdir ar freshId =>
      Inv_create_task env s name binary args env_vars workdir ar freshId hinv,
   fun ident => Inv_start_task env s ident hinv,
   fun ident => Inv_stop_task env s ident hinv,
   fun ident => Inv_remove_task env s ident hinv,
   Inv_refresh env s hinv, Inv_cleanup env s hinv⟩

theorem C7_witness :
    Inv (refresh_task_statuses
      { aliveAt := fun _ _ => false, deliver := fun _ _ => true,
        spawn := fun _ => Except.ok 3, workdirExists := fun _ => true,
        rotateOk := fun _ => true, tryWait := fun _ => TryWait.stillRunning,
        envFile := fun _ => none, now := "t4" }
      { tasks := [{ sampleTask "id05" "n5" with
          status := TaskStatus.Running, pid := some 11 }], pm := [],
        trace := [] }).tasks :=
  (C7_invariant_preserved
    { aliveAt := fun _ _ => false, deliver := fun _ _ => true,
      spawn := fun _ => Except.ok 3, workdirExists := fun _ => true,
      rotateOk := fun _ => true, tryWait := fun _ => TryWait.stillRunning,
      envFile := fun _ => none, now := "t4" }
    { tasks := [{ sampleTask "id05" "n5" with
        status := TaskStatus.Running, pid := some 11 }], pm := [],
      trace := [] } (by decide)).2.2.2.2.1

theorem start_task_body_trace_prefix (env : Env) (s : MState) (task : Task)
    (ident : String) :
    ∃ tr, (start_task_body env s task ident).2.trace = s.trace ++ tr ∧
      tr.countP isSpawn ≤ 1 := by
  unfold start_task_body
  by_cases h1 : (!wdExistsOk env task.workdir) = true
  · rw [if_pos h1]
    exact ⟨[], by simp, by simp⟩
  · rw [if_neg h1]
    by_cases h2 : (!env.rotateOk (stdoutLogPath task.id)) = true
    · rw [if_pos h2]
      exact ⟨[], by simp, by simp⟩
    · rw [if_neg h2]
      by_cases h3 : (!env.rotateOk (stderrLogPath task.id)) = true
      · rw [if_pos h3]
        exact ⟨[], by simp, by simp⟩
      · rw [if_neg h3]
        rcases hs : env.spawn task.id with e | p <;> simp only [hs]
        · refine ⟨[Ev.spawnCall task.id,
            Ev.saved (updateFirst (fun t => matchesIdent t ident)
              (fun t => { t with status := TaskStatus.Failed }) s.tasks)],
            ?_, ?_⟩
          · simp [save]
          · simp [List.countP_cons, isSpawn]
        · refine ⟨[Ev.spawnCall task.id,
            Ev.saved (updateFirst (fun t => matchesIdent t ident)
              (fun t =>
                { t with status := TaskStatus.Running, pid := some p,
                         last_started := some env.now }) s.tasks)],
            ?_, ?_⟩
          · simp [save]
          · simp [List.countP_cons, isSpawn]

theorem start_task_trace_prefix (env : Env) (s : MState) (ident : String) :
    ∃ tr, (start_task env s ident).2.trace = s.trace ++ tr ∧
      tr.countP isSpawn ≤ 1 := by
  unfold start_task
  rcases hf : find_task s.tasks ident with _ | task <;> simp only [hf]
  · exact ⟨[], by simp, by simp⟩
  · rcases hst : task.status <;> rcases hp : task.pid with _ | p <;>
      simp only [hst, hp]
    case Running.some =>
      by_cases ha : env.aliveAt 0 p = true
      · rw [if_pos ha]
        exact ⟨[], by simp, by simp⟩
      · rw [if_neg ha]
        obtain ⟨tr, htr, hc⟩ := start_task_body_trace_prefix env
          (save { s with
            tasks := updateFirst (fun t => matchesIdent t ident)
              (fun t => { t with status := TaskStatus.Failed, pid := none })
              s.tasks }) task ident
        refine ⟨Ev.saved (updateFirst (fun t => matchesIdent t ident)
            (fun t => { t with status := TaskStatus.Failed, pid := none })
            s.tasks) :: tr, ?_, ?_⟩
        · rw [htr]
          simp [save]
        · simpa [List.countP_cons, isSpawn] using hc
    all_goals exact start_task_body_trace_prefix env s task ident

theorem start_task_body_error_tasks_shape (env : Env) (s : MState)
    (task : Task) (ident : String) (e : HErr)
    (h : (start_task_body env s task ident).1 = Except.error e) :
    (start_task_body env s task ident).2.tasks = s.tasks ∨
    (start_task_body env s task ident).2.tasks
      = updateFirst (fun t => matchesIdent t ident)
          (fun t => { t with status := TaskStatus.Failed }) s.tasks := by
  unfold start_task_body at h ⊢
  by_cases h1 : (!wdExistsOk env task.workdir) = true
  · rw [if_pos h1]
    exact Or.inl rfl
  · rw [if_neg h1] at h ⊢
    by_cases h2 : (!env.rotateOk (stdoutLogPath task.id)) = true
    · rw [if_pos h2]
      exact Or.inl rfl
    · rw [if_neg h2] at h ⊢
      by_cases h3 : (!env.rotateOk (stderrLogPath task.id)) = true
      · rw [if_pos h3]
        exact Or.inl rfl
      · rw [if_neg h3] at h ⊢
        rcases hs : env.spawn task.id with e1 | p <;> simp only [hs] at h ⊢
        · refine Or.inr ?_
          simp only [save]
        · simp at h

theorem start_task_error_tasks_shape (env : Env) (s : MState) (ident : String)
    (e : HErr) (h : (start_task env s ident).1 = Except.error e) :
    ∃ base,
      (base = s.tasks ∨
        base = updateFirst (fun t => matchesIdent t ident)
          (fun t => { t with status := TaskStatus.Failed, pid := none })
          s.tasks) ∧
      ((start_task env s ident).2.tasks = base ∨
       (start_task env s ident).2.tasks
         = updateFirst (fun t => matchesIdent t ident)
             (fun t => { t with status := TaskStatus.Failed }) base) := by
  unfold start_task at h ⊢
  rcases hf : find_task s.tasks ident with _ | task <;> simp only [hf] at h ⊢
  · exact ⟨s.tasks, Or.inl rfl, Or.inl rfl⟩
  · rcases hst : task.status <;> rcases hp : task.pid with _ | p <;>
      simp only [hst, hp] at h ⊢
    case Running.some =>
      by_cases ha : env.aliveAt 0 p = true
      · rw [if_pos ha]
        exact ⟨s.tasks, Or.inl rfl, Or.inl rfl⟩
      · rw [if_neg ha] at h ⊢
        refine ⟨updateFirst (fun t => matchesIdent t ident)
          (fun t => { t with status := TaskStatus.Failed, pid := none })
          s.tasks, Or.inr rfl, ?_⟩
        have hb := start_task_body_error_tasks_shape env
          (save { s with
            tasks := updateFirst (fun t => matchesIdent t ident)
              (fun t => { t with status := TaskStatus.Failed, pid := none })
              s.tasks }) task ident e h
        simpa [save] using hb
    all_goals exact ⟨s.tasks, Or.inl rfl,
      start_task_body_error_tasks_shape env s task ident e h⟩

theorem failedId_updateFirst (id : String) (p : Task → Bool)
    (f : Task → Task) (ts : List Task)
    (hP : ∀ u ∈ ts, u.id = id → u.status = TaskStatus.Failed)
    (hid : ∀ u, (f u).id = u.id)
    (hstat : ∀ u, (f u).status = u.status ∨
      (f u).status = TaskStatus.Failed) :
    ∀ u ∈ updateFirst p f ts, u.id = id → u.status = TaskStatus.Failed := by
  intro u hu hid2
  rcases mem_updateFirst _ _ _ _ hu with h1 | ⟨b, hb, rfl⟩
  · exact hP u h1 hid2
  · have hbmem := List.mem_of_find?_eq_some hb
    rcases hstat b with h2 | h2
    · rw [h2]
      exact hP b hbmem (by rw [← hid b]; exact hid2)
    · exact h2

theorem restartIter_failed_stays (env : Env) (s : MState) (id : String)
    (t : Task) (e : HErr)
    (hf : s.tasks.find? (fun u => u.id == id) = some t)
    (hP : ∀ u ∈ s.tasks, u.id = id → u.status = TaskStatus.Failed)
    (herr : (start_task env (restartSleep (restartIncr s id)) t.name).1
      = Except.error e) :
    ∀ u ∈ (restartIter env s id).tasks, u.id = id →
      u.status = TaskStatus.Failed := by
  have hP1 : ∀ u ∈ (restartSleep (restartIncr s id)).tasks, u.id = id →
      u.status = TaskStatus.Failed := by
    simp only [restartSleep, restartIncr, save]
    exact failedId_updateFirst id _ _ _ hP (fun u => rfl)
      (fun u => Or.inl rfl)
  obtain ⟨base, hb, hr⟩ := start_task_error_tasks_shape env
    (restartSleep (restartIncr s id)) t.name e herr
  have hPbase : ∀ u ∈ base, u.id = id → u.status = TaskStatus.Failed := by
    rcases hb with rfl | rfl
    · exact hP1
    · exact failedId_updateFirst id _ _ _ hP1 (fun u => rfl)
        (fun u => Or.inr rfl)
  have hPres : ∀ u ∈ (start_task env (restartSleep (restartIncr s id))
      t.name).2.tasks, u.id = id → u.status = TaskStatus.Failed := by
    rcases hr with h | h <;> rw [h]
    · exact hPbase
    · exact failedId_updateFirst id _ _ _ hPbase (fun u => rfl)
        (fun u => Or.inr rfl)
  unfold restartIter
  simp only [hf]
  rcases hstart : start_task env (restartSleep (restartIncr s id)) t.name
    with ⟨r, s3⟩
  rw [hstart] at herr hPres
  rcases r with e1 | _
  · simp only [hstart]
    simp only [save]
    exact failedId_updateFirst id _ _ _ hPres (fun u => rfl)
      (fun u => Or.inr rfl)
  · simp at herr

theorem restartIter_order (env : Env) (s : MState) (id : String) (t : Task)
    (hf : s.tasks.find? (fun u => u.id == id) = some t) :
    ∃ tr, (restartIter env s id).trace
        = s.trace
          ++ Ev.saved (updateFirst (fun u => u.id == id)
              (fun u => { u with restart_count := u.restart_count + 1 })
              s.tasks)
          :: Ev.sleptMs RESTART_DELAY_MS :: tr ∧
      (updateFirst (fun u => u.id == id)
          (fun u => { u with restart_count := u.restart_count + 1 })
          s.tasks).find? (fun u => u.id == id)
        = some { t with restart_count := t.restart_count + 1 } := by
  have hfind := find?_updateFirst (fun u => u.id == id)
    (fun u => { u with restart_count := u.restart_count + 1 })
    s.tasks t hf (fun u => rfl)
  unfold restartIter
  simp only [hf]
  obtain ⟨tr, htr, _⟩ := start_task_trace_prefix env
    (restartSleep (restartIncr s id)) t.name
  rcases hstart : start_task env (restartSleep (restartIncr s id)) t.name
    with ⟨r, s3⟩
  rw [hstart] at htr
  have htr3 : s3.trace = (restartSleep (restartIncr s id)).trace ++ tr := htr
  have htr2 : (restartSleep (restartIncr s id)).trace
      = s.trace ++ [Ev.saved (updateFirst (fun u => u.id == id)
          (fun u => { u with restart_count := u.restart_count + 1 })
          s.tasks), Ev.sleptMs RESTART_DELAY_MS] := by
    simp [restartSleep, restartIncr, save]
  rcases r with e | _ <;> simp only [hstart]
  · refine ⟨tr ++ [Ev.saved (updateFirst (fun u => matchesIdent u t.name)
      (fun u => { u with status := TaskStatus.Failed }) s3.tasks)],
      ?_, hfind⟩
    simp [save, htr3, htr2]
  · refine ⟨tr, ?_, hfind⟩
    rw [htr3, htr2]
    simp

theorem restartIter_spawn_count (env : Env) (s : MState) (id : String) :
    ((restartIter env s id).trace).countP isSpawn
      ≤ s.trace.countP isSpawn + 1 := by
  unfold restartIter
  rcases hf : s.tasks.find? (fun u => u.id == id) with _ | t <;>
    simp only [hf]
  · simp
  · obtain ⟨tr, htr, hc⟩ := start_task_trace_prefix env
      (restartSleep (restartIncr s id)) t.name
    have htr2 : (restartSleep (restartIncr s id)).trace.countP isSpawn
        = s.trace.countP isSpawn := by
      simp [restartSleep, restartIncr, save, List.countP_append, isSpawn]
    rcases hstart : start_task env (restartSleep (restartIncr s id)) t.name
      with ⟨r, s3⟩
    rw [hstart] at htr
    rcases r with e | _ <;> simp only [hstart]
    · simp only [save]
      rw [List.countP_append, htr, List.countP_append, htr2]
      simp [isSpawn]
      omega
    · rw [htr, List.countP_append, htr2]
      omega

theorem restartSelect_mem (tasks : List Task) (id : String) :
    id ∈ restartSelect tasks ↔
      ∃ t ∈ tasks, t.id = id ∧ t.auto_restart = true ∧
        t.status = TaskStatus.Failed ∧
        t.restart_count ≤ MAX_RESTART_ATTEMPTS := by
  unfold restartSelect restartPred
  simp only [List.mem_map, List.mem_filter, Bool.and_eq_true, beq_iff_eq,
    decide_eq_true_eq]
  constructor
  · rintro ⟨t, ⟨ht, ⟨ha, hs⟩, hc⟩, rfl⟩
    exact ⟨t, ht, rfl, ha, hs, hc⟩
  · rintro ⟨t, ht, rfl, ha, hs, hc⟩
    exact ⟨t, ⟨ht, ⟨ha, hs⟩, hc⟩, rfl⟩

/-- C3 counterexample to the final clause.  Task `C` (id `"abc9"`, count 6,
permanently failing) is over the cap and is indeed not selected; but the
selected task `B` (name `"abc"`) has its start attempt resolve — by
id-prefix — to `C`, so the pass spawns `C` and leaves it `Running`: a task
whose restartCount exceeds 5 still received an automatic start attempt. -/
theorem C3_counterexample :
    ((c3State.tasks.find? (fun t => t.id == "abc9")).map
      Task.restart_count) = some 6 ∧
    MAX_RESTART_ATTEMPTS < 6 ∧
    "abc9" ∉ restartSelect c3State.tasks ∧
    Ev.spawnCall "abc9" ∈ (check_and_restart_tasks c3Env c3State).trace ∧
    ((check_and_restart_tasks c3Env c3State).tasks.find?
      (fun t => t.id == "abc9")).map Task.status
      = some TaskStatus.Running := by
  decide

/-- C3 (amended): on each restart pass, exactly the tasks satisfying
`autoRestart && status == Failed && restartCount ≤ MAX_RESTART_ATTEMPTS`
are selected; for each selected task the iteration first saves the registry
with its restart count incremented, then sleeps, and only afterwards can a
start attempt occur; a failed start attempt leaves the selected task
`Failed` (no other iteration event un-fails it), and an iteration makes at
most one start attempt; a task whose restartCount exceeds the cap is never
selected — but it can still receive an incidental start attempt when a
selected task's name resolves to it by id-prefix, so "receives no automatic
attempt" holds only for the task's own selection. -/
theorem C3_restart_selection (env : Env) (s : MState) :
    (∀ id, id ∈ restartSelect s.tasks ↔
      ∃ t ∈ s.tasks, t.id = id ∧ t.auto_restart = true ∧
        t.status = TaskStatus.Failed ∧
        t.restart_count ≤ MAX_RESTART_ATTEMPTS) ∧
    (∀ id t, s.tasks.find? (fun u => u.id == id) = some t →
      ∃ tr, (restartIter env s id).trace
          = s.trace ++ Ev.saved (updateFirst (fun u => u.id == id)
              (fun u => { u with restart_count := u.restart_count + 1 })
              s.tasks) :: Ev.sleptMs RESTART_DELAY_MS :: tr ∧
        (updateFirst (fun u => u.id == id)
            (fun u => { u with restart_count := u.restart_count + 1 })
            s.tasks).find? (fun u => u.id == id)
          = some { t with restart_count := t.restart_count + 1 }) ∧
    (∀ id t e, s.tasks.find? (fun u => u.id == id) = some t →
      (s.tasks.map Task.id).Nodup → t.status = TaskStatus.Failed →
      (start_task env (restartSleep (restartIncr s id)) t.name).1
        = Except.error e →
      ∀ u ∈ (restartIter env s id).tasks, u.id = id →
        u.status = TaskStatus.Failed) ∧
    (∀ id, ((restartIter env s id).trace).countP isSpawn
      ≤ s.trace.countP isSpawn + 1) ∧
    (∀ t ∈ s.tasks, (s.tasks.map Task.id).Nodup →
      MAX_RESTART_ATTEMPTS < t.restart_count →
      t.id ∉ restartSelect s.tasks) := by
  refine ⟨fun id => restartSelect_mem s.tasks id,
    fun id t hf => restartIter_order env s id t hf, ?_,
    fun id => restartIter_spawn_count env s id, ?_⟩
  · intro id t e hf hnd hfail herr
    refine restartIter_failed_stays env s id t e hf ?_ herr
    intro u hu hid
    have hmem := List.mem_of_find?_eq_some hf
    have hidt : t.id = id := by simpa using List.find?_some hf
    have hut : u = t :=
      List.inj_on_of_nodup_map hnd hu hmem (by rw [hid, hidt])
    rw [hut]
    exact hfail
  · intro t ht hnd hgt hin
    rcases (restartSelect_mem s.tasks t.id).mp hin with
      ⟨t2, ht2, hid2, _, _, hc2⟩
    have ht2t : t2 = t := List.inj_on_of_nodup_map hnd ht2 ht hid2
    rw [ht2t] at hc2
    omega

theorem C3_witness : "id07" ∉ restartSelect [c3wTask] :=
  (C3_restart_selection c3Env
    { tasks := [c3wTask], pm := [], trace := [] }).2.2.2.2
    c3wTask (by decide) (by decide) (by decide)

end HyperV
